import Mathlib

/-!
Verification development for the `ExecutionContext` class of
`packages/core/src/node-execution-context/execute-context.ts`.

The TypeScript class is shallowly embedded: each method that the properties
below talk about becomes a Lean function over explicit data, translated
statement by statement from the source.  JavaScript peculiarities that the
properties depend on are modelled explicitly:

* a thrown `ApplicationError` becomes the `.error` branch of an `Except`;
* a JS `null` stored in a slot becomes `none` in an `Option`-valued slot,
  while an out-of-bounds read (JS `undefined`) becomes a `none` result of a
  `List.getElem?` access — the two are distinct, exactly as `=== null` only
  matches the former;
* a JS object used as a string-keyed dictionary (with `hasOwnProperty`
  guards) becomes an association list with a `lookupKey` function;
* the asynchronous, fire-and-forget persistence calls become an explicit
  `Except`-valued outcome parameter whose rejection is routed to a warning
  list, mirroring the `.catch` handler in the source;
* items, task-run entries and provenance entries are opaque (`Nat`), since
  the context never inspects them.
-/

set_option autoImplicit false

namespace N8n

/-- Opaque execution-data item (`INodeExecutionData`). -/
abbrev Item := Nat

/-- One slot of a task-data channel: `none` models an explicitly stored JS
`null`, `some b` a present batch of items. -/
abbrev BatchSlot := Option (List Item)

/-- Embedding of `ITaskDataConnections`: mapping from connection-channel name to the ordered
list of per-input-slot batches, as an association list.  A key being present
models `hasOwnProperty` returning `true`. -/
abbrev TaskDataConnections := List (String × List BatchSlot)

/-- String-keyed dictionary lookup (JS property access guarded by
`hasOwnProperty`): first binding wins. -/
def lookupKey {α : Type} : List (String × α) → String → Option α
  | [], _ => none
  | (k, v) :: rest, name => if k = name then some v else lookupKey rest name

/-- The `ApplicationError`s thrown by the addressing methods, one constructor
per distinct `throw` site, plus the implicit JS `TypeError` raised by reading
a property of `undefined`. -/
inductive AddressingError where
  /-- message `Could not get input with given index` with extras `inputIndex`, `inputName`. -/
  | couldNotGetInput (inputIndex : Nat) (inputName : String)
  /-- message `Value of input was not set` with extras `inputIndex`, `inputName`. -/
  | valueOfInputNotSet (inputIndex : Nat) (inputName : String)
  /-- message `Source data is missing`. -/
  | sourceDataMissing
  /-- JS runtime `TypeError` (reading an index of `undefined`). -/
  | jsTypeError
  deriving DecidableEq, Repr

/-- Embedding of `ExecutionContext.getInputData(inputIndex = 0, inputName = main)`
(execute-context.ts lines 311–331), translated statement by statement.

* channel absent (`!hasOwnProperty`) → `return []`;
* `this.inputData[inputName].length < inputIndex` → throw
  message `Could not get input with given index` (note: the source's comparison is
  strict `<`);
* `this.inputData[inputName][inputIndex] === null` → throw
  message `Value of input was not set`;
* otherwise `return this.inputData[inputName][inputIndex]`, which in JS is
  `undefined` (modelled as `.ok none`) when `inputIndex` equals the length.
-/
def getInputData (inputData : TaskDataConnections) (inputIndex : Nat)
    (inputName : String) : Except AddressingError (Option (List Item)) :=
  match lookupKey inputData inputName with
  | none => .ok (some [])
  | some batches =>
    if batches.length < inputIndex then
      .error (.couldNotGetInput inputIndex inputName)
    else if batches[inputIndex]? = some none then
      .error (.valueOfInputNotSet inputIndex inputName)
    else
      .ok batches[inputIndex]?.join

/-- Opaque provenance entry (`ISourceData`). -/
abbrev SourceEntry := Nat

/-- The part of `IExecuteData` that `getInputSourceData` reads: its `source`
field, `none` modelling JS `null`, otherwise a dictionary from channel name to
per-slot provenance entries (a stored `null` slot being `none`). -/
structure ExecuteDataM where
  source : Option (List (String × List (Option SourceEntry)))
  deriving Repr

/-- Embedding of `ExecutionContext.getInputSourceData(inputIndex = 0, inputName = main)`
(execute-context.ts lines 333–339):

* `this.executeData?.source === null` → throw message `Source data is missing`;
* otherwise `return this.executeData.source[inputName][inputIndex]!` — the
  non-null assertion is erased at runtime, so a missing channel raises a JS
  `TypeError` and a missing or null slot is returned as is. -/
def getInputSourceData (executeData : ExecuteDataM) (inputIndex : Nat)
    (inputName : String) : Except AddressingError (Option SourceEntry) :=
  match executeData.source with
  | none => .error .sourceDataMissing
  | some src =>
    match lookupKey src inputName with
    | none => .error .jsTypeError
    | some slots => .ok slots[inputIndex]?.join

/-- Opaque per-attempt run-result entry (`ITaskData`). -/
abbrev TaskRun := Nat

/-- Embedding of `resultData.runData`: mapping from node name to the ordered list of
per-attempt run entries. -/
abbrev RunData := List (String × List TaskRun)

/-- Embedding of `IRunExecutionData`, the shared run execution record.  `startData` and
`executionData` are opaque to every operation modelled here; `runData` is the
`resultData.runData` dictionary and `waitTill` the nullable wait timestamp
(a timestamp being an abstract `Nat`). -/
structure IRunExecutionData where
  startData : Nat
  runData : RunData
  executionData : Nat
  waitTill : Option Nat
  deriving DecidableEq, Repr

/-- Embedding of `let currentNodeRunIndex = 0; if (runData.hasOwnProperty(nodeName))
currentNodeRunIndex = runData[nodeName].length` — the attempt index computed
at the top of `addInputData` (execute-context.ts lines 436–440). -/
def currentNodeRunIndexOf (runData : RunData) (nodeName : String) : Nat :=
  match lookupKey runData nodeName with
  | some runs => runs.length
  | none => 0

/-- Outcome of the asynchronous `addExecutionDataFunctions` persistence call:
the promise either resolves, or rejects with an error message. -/
abbrev PersistOutcome := Except String Unit

/-- What `addInputData` hands back to the node, plus the warnings its
`.catch` handler emitted. -/
structure AddDataResult where
  index : Nat
  warnings : List String
  deriving DecidableEq, Repr

/-- The `.catch` warning of `addInputData`. -/
def inputDataWarning (nodeName msg : String) : String :=
  s!"There was a problem logging input data of node \"{nodeName}\": {msg}"

/-- The `.catch` warning of `addOutputData`. -/
def outputDataWarning (nodeName msg : String) : String :=
  s!"There was a problem logging output data of node \"{nodeName}\": {msg}"

/-- Embedding of `ExecutionContext.addInputData(connectionType, data)` (execute-context.ts
lines 432–459): compute `currentNodeRunIndex` as the count of run entries
already recorded under this node's name, fire the persistence call
(whose rejection is caught and logged as a warning, never rethrown), and
return `{ index: currentNodeRunIndex }`. -/
def addInputData (runData : RunData) (nodeName : String)
    (persist : PersistOutcome) : AddDataResult :=
  let currentNodeRunIndex := currentNodeRunIndexOf runData nodeName
  { index := currentNodeRunIndex
    warnings :=
      match persist with
      | .ok _ => []
      | .error msg => [inputDataWarning nodeName msg] }

/-- Embedding of `ExecutionContext.addOutputData(connectionType, currentNodeRunIndex, data)`
(execute-context.ts lines 461–481): fire the persistence call for the given
attempt index; a rejection is caught and logged as a warning, never rethrown;
nothing is returned. -/
def addOutputData (nodeName : String) (currentNodeRunIndex : Nat)
    (persist : PersistOutcome) : List String :=
  match currentNodeRunIndex, persist with
  | _, .ok _ => []
  | _, .error msg => [outputDataWarning nodeName msg]

/-- Embedding of `ExecutionContext.putExecutionToWait(waitTill)` (execute-context.ts lines
382–387): set `runExecutionData.waitTill`, then, when the engine supplied a
`setExecutionStatus` callback, call it with the string `waiting`.  The returned list
records the statuses the callback was notified of. -/
def putExecutionToWait (hasSetExecutionStatus : Bool)
    (runExecutionData : IRunExecutionData) (waitTill : Nat) :
    IRunExecutionData × List String :=
  ({ runExecutionData with waitTill := some waitTill },
   if hasSetExecutionStatus then ["waiting"] else [])

/-- State of an `AbortSignal` together with the log of handler invocations.
Listeners are identified by opaque ids (each wrapper `fn` created by
`onExecutionCancellation` is a fresh function object); `invocations` records,
in order, the handlers that have been invoked. -/
structure SignalState where
  listeners : List Nat
  invocations : List Nat
  deriving DecidableEq, Repr

/-- Embedding of `addEventListener(abort, fn)`: appends the listener; registering a
listener that is already registered is a DOM no-op. -/
def addEventListener (s : SignalState) (l : Nat) : SignalState :=
  if l ∈ s.listeners then s else { s with listeners := s.listeners ++ [l] }

/-- Running one listener during event dispatch.  The wrapper registered by
`onExecutionCancellation` first removes itself (`removeEventListener`) and
then invokes the handler; a listener that has already been removed does
nothing. -/
def runListener (l : Nat) (s : SignalState) : SignalState :=
  if l ∈ s.listeners then
    { listeners := s.listeners.erase l, invocations := s.invocations ++ [l] }
  else s

/-- Dispatching the `abort` event to a snapshot of listeners, in order. -/
def fireAux : List Nat → SignalState → SignalState
  | [], s => s
  | l :: ls, s => fireAux ls (runListener l s)

/-- Firing the signal dispatches `abort` to the listeners registered at that
moment. -/
def fire (s : SignalState) : SignalState :=
  fireAux s.listeners s

/-- Embedding of `ExecutionContext.onExecutionCancellation(handler)` (execute-context.ts
lines 177–183): `this.abortSignal?.addEventListener(abort, fn)` where `fn`
self-unregisters before invoking `handler`.  Without a signal
(`abortSignal === undefined`) the optional chain makes the call a no-op. -/
def onExecutionCancellation (abortSignal : Option SignalState) (handler : Nat) :
    Option SignalState :=
  match abortSignal with
  | none => none
  | some s => some (addEventListener s handler)

/-- The constructor state the cancellation accessors read: the optional
`abortSignal` the scheduler passed (the other constructor parameters are
modelled as explicit arguments of the individual operations). -/
structure ExecutionContext where
  abortSignal : Option SignalState

/-- Embedding of `ExecutionContext.getExecutionCancelSignal()` (execute-context.ts lines
172–174): `return this.abortSignal`. -/
def getExecutionCancelSignal (ctx : ExecutionContext) : Option SignalState :=
  ctx.abortSignal

/-- One entry of the binary-data store: an id, the workflow/execution scope it
is homed in, and its bytes. -/
structure StoreEntry where
  id : Nat
  workflowId : Option String
  executionId : String
  data : List Nat
  deriving DecidableEq, Repr

/-- The binary-data store, with a fresh-id counter. -/
structure BinaryStore where
  entries : List StoreEntry
  nextId : Nat
  deriving DecidableEq, Repr

/-- Resolve a binary-data reference id in the store. -/
def BinaryStore.lookup (st : BinaryStore) (i : Nat) : Option StoreEntry :=
  st.entries.find? (fun e => e.id == i)

/-- Store well-formedness: every allocated id is below the fresh-id counter. -/
def BinaryStore.WF (st : BinaryStore) : Prop :=
  ∀ e ∈ st.entries, e.id < st.nextId

instance (st : BinaryStore) : Decidable st.WF :=
  List.decidableBAll (fun (e : StoreEntry) => e.id < st.nextId) st.entries

/-- The bytes a reference resolves to (a dangling reference yields no bytes). -/
def sourceBytes (st : BinaryStore) (r : Nat) : List Nat :=
  match st.lookup r with
  | some e => e.data
  | none => []

/-- Modelled from the spec: one step of
`BinaryDataService.duplicateBinaryData` (the service lives outside this
slice; §4.4/§8 of the spec describe it).  Duplicating one binary-data
reference allocates a fresh id, copies the referenced bytes into an entry
homed in the given workflow/execution scope and returns the new reference
id. -/
def duplicateRef (workflowId : Option String) (executionId : String)
    (st : BinaryStore) (r : Nat) : BinaryStore × Nat :=
  (⟨st.entries ++ [⟨st.nextId, workflowId, executionId, sourceBytes st r⟩],
    st.nextId + 1⟩,
   st.nextId)

/-- Modelled from the spec: `BinaryDataService.duplicateBinaryData` re-homes
every binary-data reference of the sub-workflow result, left to right. -/
def duplicateAll (workflowId : Option String) (executionId : String) :
    BinaryStore → List Nat → BinaryStore × List Nat
  | st, [] => (st, [])
  | st, r :: rs =>
    ((duplicateAll workflowId executionId (duplicateRef workflowId executionId st r).1 rs).1,
     (duplicateRef workflowId executionId st r).2 ::
       (duplicateAll workflowId executionId (duplicateRef workflowId executionId st r).1 rs).2)

/-- Modelled from the spec: `BinaryDataService.duplicateBinaryData(workflowId,
executionId, result)` — duplicate every binary-data reference of `result`
under the given scope, returning the updated store and the rewritten
result. -/
def duplicateBinaryData (workflowId : Option String) (executionId : String)
    (st : BinaryStore) (result : List Nat) : BinaryStore × List Nat :=
  duplicateAll workflowId executionId st result

/-- Error wrapping a failed nested execution. -/
abbrev SubWorkflowError := String

/-- Embedding of `ExecutionContext.executeWorkflow(workflowInfo, inputData,
parentCallbackManager)` (execute-context.ts lines 230–251): delegate to
`additionalData.executeWorkflow` (its outcome enters as `invokerResult`); a
fulfilled result is piped through
`binaryDataService.duplicateBinaryData(this.workflow.id,
this.additionalData.executionId!, result)` before being returned; a rejection
propagates. -/
def executeWorkflow (workflowId : Option String) (executionId : String)
    (st : BinaryStore) (invokerResult : Except SubWorkflowError (List Nat)) :
    Except SubWorkflowError (BinaryStore × List Nat) :=
  match invokerResult with
  | .error e => .error e
  | .ok result => .ok (duplicateBinaryData workflowId executionId st result)

/-! Theorems. -/

/-- Claim C2: for a channel present in the task-data connections and an
`inputIndex` addressing a valid slot, `getInputData` returns exactly the item
batch supplied at construction when the slot is non-null, and fails with the
unset-input-value error when the slot is explicitly null. -/
theorem getInputData_valid_slot (inputData : TaskDataConnections)
    (inputName : String) (batches : List BatchSlot) (inputIndex : Nat)
    (hch : lookupKey inputData inputName = some batches)
    (hix : inputIndex < batches.length) :
    (∀ b : List Item, batches[inputIndex]? = some (some b) →
        getInputData inputData inputIndex inputName = .ok (some b)) ∧
    (batches[inputIndex]? = some none →
        getInputData inputData inputIndex inputName =
          .error (.valueOfInputNotSet inputIndex inputName)) := by
  constructor
  · intro b hb
    simp [getInputData, hch, hb, Nat.lt_asymm hix]
  · intro hb
    simp [getInputData, hch, hb, Nat.lt_asymm hix]

theorem getInputData_valid_slot_witness :
    (0 : Nat) < ([some [5]] : List BatchSlot).length ∧
    getInputData [("main", [some [5]])] 0 "main" = .ok (some [5]) :=
  ⟨by decide,
   (getInputData_valid_slot [("main", [some [5]])] "main" [some [5]] 0 rfl
     (by decide)).1 [5] rfl⟩

/-- Claim C3 (showing the code bug): for a connected channel with exactly one
recorded batch, the call `getInputData(1)` addresses a slot past the recorded
batch count, yet does not fail with the addressing error: the source guards
with the strict comparison `this.inputData[inputName].length < inputIndex`,
so at `inputIndex` equal to the length the read falls through both guards and
the JS function returns `undefined`. -/
theorem getInputData_at_batch_count_returns_undefined :
    getInputData [("main", [some [0]])] 1 "main" = .ok none := by
  rfl

/-- Claim C4: for a channel name not present in the task-data connections,
`getInputData` returns the empty item sequence for every `inputIndex`, and
never raises an error. -/
theorem getInputData_unconnected (inputData : TaskDataConnections)
    (inputIndex : Nat) (inputName : String)
    (hch : lookupKey inputData inputName = none) :
    getInputData inputData inputIndex inputName = .ok (some []) := by
  unfold getInputData
  rw [hch]

theorem getInputData_unconnected_witness :
    getInputData [("main", [some [1]])] 0 "extra" = .ok (some []) :=
  getInputData_unconnected [("main", [some [1]])] 0 "extra" rfl

/-- Claim C5: `addInputData` computes the attempt index as the count of run
entries already recorded in the run execution record under this node's name
at call time — zero when the node has no entry yet — and returns exactly that
index. -/
theorem addInputData_attempt_index (runData : RunData) (nodeName : String)
    (persist : PersistOutcome) :
    (addInputData runData nodeName persist).index =
      currentNodeRunIndexOf runData nodeName ∧
    (∀ runs : List TaskRun, lookupKey runData nodeName = some runs →
        (addInputData runData nodeName persist).index = runs.length) ∧
    (lookupKey runData nodeName = none →
        (addInputData runData nodeName persist).index = 0) := by
  refine ⟨rfl, ?_, ?_⟩
  · intro runs h
    simp [addInputData, currentNodeRunIndexOf, h]
  · intro h
    simp [addInputData, currentNodeRunIndexOf, h]

theorem addInputData_attempt_index_witness :
    (addInputData [("node", [3, 4])] "node" (.ok ())).index = 2 ∧
    (addInputData [("node", [3, 4])] "fresh" (.ok ())).index = 0 :=
  ⟨(addInputData_attempt_index [("node", [3, 4])] "node" (.ok ())).2.1 [3, 4] rfl,
   (addInputData_attempt_index [("node", [3, 4])] "fresh" (.ok ())).2.2 rfl⟩

/-- Claim C6: `addInputData` and `addOutputData` always return normally to the
node: whatever the outcome of the persistence call, `addInputData` still hands
back the computed attempt index, and a persistence failure surfaces only as a
logged warning — the result types carry no error case, mirroring the `.catch`
handlers that swallow the rejection. -/
theorem addData_never_raises (runData : RunData) (nodeName : String)
    (currentNodeRunIndex : Nat) (msg : String) :
    (addInputData runData nodeName (.ok ())).warnings = [] ∧
    (addInputData runData nodeName (.error msg)).warnings =
      [inputDataWarning nodeName msg] ∧
    (addInputData runData nodeName (.error msg)).index =
      (addInputData runData nodeName (.ok ())).index ∧
    addOutputData nodeName currentNodeRunIndex (.ok ()) = [] ∧
    addOutputData nodeName currentNodeRunIndex (.error msg) =
      [outputDataWarning nodeName msg] :=
  ⟨rfl, rfl, rfl, rfl, rfl⟩

/-- Claim C7: `putExecutionToWait t` sets the wait-until field of the run
execution record to exactly `t`, leaves every other field unchanged, and,
when the engine supplied a status setter, notifies it with the waiting
status. -/
theorem putExecutionToWait_sets_waitTill (hasSetExecutionStatus : Bool)
    (rec : IRunExecutionData) (t : Nat) :
    (putExecutionToWait hasSetExecutionStatus rec t).1.waitTill = some t ∧
    (putExecutionToWait hasSetExecutionStatus rec t).1.startData = rec.startData ∧
    (putExecutionToWait hasSetExecutionStatus rec t).1.runData = rec.runData ∧
    (putExecutionToWait hasSetExecutionStatus rec t).1.executionData =
      rec.executionData ∧
    (hasSetExecutionStatus = true →
      (putExecutionToWait hasSetExecutionStatus rec t).2 = ["waiting"]) := by
  refine ⟨rfl, rfl, rfl, rfl, ?_⟩
  intro h
  simp [putExecutionToWait, h]

theorem putExecutionToWait_sets_waitTill_witness :
    (putExecutionToWait true ⟨1, [("n", [2])], 3, none⟩ 9).1.waitTill = some 9 ∧
    (putExecutionToWait true ⟨1, [("n", [2])], 3, none⟩ 9).1.runData = [("n", [2])] ∧
    (putExecutionToWait true ⟨1, [("n", [2])], 3, none⟩ 9).2 = ["waiting"] :=
  ⟨(putExecutionToWait_sets_waitTill true ⟨1, [("n", [2])], 3, none⟩ 9).1,
   (putExecutionToWait_sets_waitTill true ⟨1, [("n", [2])], 3, none⟩ 9).2.2.1,
   (putExecutionToWait_sets_waitTill true ⟨1, [("n", [2])], 3, none⟩ 9).2.2.2.2 rfl⟩

/-- Claim C8: `getInputSourceData` returns the provenance entry recorded for
the addressed slot when provenance is populated, and fails with the
source-data-missing error whenever the provenance was never populated. -/
theorem getInputSourceData_provenance (executeData : ExecuteDataM)
    (inputIndex : Nat) (inputName : String) :
    (executeData.source = none →
      getInputSourceData executeData inputIndex inputName =
        .error .sourceDataMissing) ∧
    (∀ src slots e, executeData.source = some src →
      lookupKey src inputName = some slots →
      slots[inputIndex]? = some (some e) →
      getInputSourceData executeData inputIndex inputName = .ok (some e)) := by
  constructor
  · intro h
    simp [getInputSourceData, h]
  · intro src slots e hs hl he
    simp [getInputSourceData, hs, hl, he]

theorem getInputSourceData_provenance_witness :
    getInputSourceData ⟨some [("main", [some 4])]⟩ 0 "main" = .ok (some 4) ∧
    getInputSourceData ⟨none⟩ 0 "main" = .error .sourceDataMissing :=
  ⟨(getInputSourceData_provenance ⟨some [("main", [some 4])]⟩ 0 "main").2
      [("main", [some 4])] [some 4] 4 rfl rfl rfl,
   (getInputSourceData_provenance ⟨none⟩ 0 "main").1 rfl⟩

/-- Claim C10: when the context was constructed without a cancellation signal,
`getExecutionCancelSignal` returns the absent value and
`onExecutionCancellation` is a silent no-op for every handler: it returns
normally with no signal state touched, so no handler can ever be invoked. -/
theorem cancellation_without_signal (ctx : ExecutionContext)
    (h : ctx.abortSignal = none) :
    getExecutionCancelSignal ctx = none ∧
    ∀ handler : Nat,
      onExecutionCancellation (getExecutionCancelSignal ctx) handler = none := by
  constructor
  · simpa [getExecutionCancelSignal] using h
  · intro handler
    simp [onExecutionCancellation, getExecutionCancelSignal, h]

theorem cancellation_without_signal_witness :
    getExecutionCancelSignal ⟨none⟩ = none ∧
    onExecutionCancellation (getExecutionCancelSignal ⟨none⟩) 5 = none :=
  ⟨(cancellation_without_signal ⟨none⟩ rfl).1,
   (cancellation_without_signal ⟨none⟩ rfl).2 5⟩

/-- Dispatching to a duplicate-free snapshot of listeners that is exactly the
registered list runs every listener once, in order, and leaves the signal with
no registered listeners: each wrapper self-unregisters before invoking its
handler. -/
theorem fireAux_complete (ls : List Nat) (inv : List Nat) (hnd : ls.Nodup) :
    fireAux ls ⟨ls, inv⟩ = ⟨[], inv ++ ls⟩ := by
  induction ls generalizing inv with
  | nil => simp [fireAux]
  | cons a as ih =>
    have hrun : runListener a ⟨a :: as, inv⟩ = ⟨as, inv ++ [a]⟩ := by
      simp [runListener]
    rw [fireAux, hrun, ih (inv ++ [a]) hnd.of_cons]
    simp

/-- Claim C9: a handler registered through `onExecutionCancellation` is
invoked at most once.  Registering a fresh handler on a signal succeeds; when
the signal fires, the handler is invoked exactly once (its wrapper removes
itself from the listener list before invoking it), and firing the signal a
second time changes nothing, so the handler is never re-invoked. -/
theorem onExecutionCancellation_one_shot (s : SignalState) (handler : Nat)
    (hnd : s.listeners.Nodup) (hfresh : handler ∉ s.listeners) :
    onExecutionCancellation (some s) handler =
      some (addEventListener s handler) ∧
    (fire (addEventListener s handler)).invocations.count handler =
      s.invocations.count handler + 1 ∧
    fire (fire (addEventListener s handler)) = fire (addEventListener s handler) := by
  obtain ⟨ls, inv⟩ := s
  simp only at hnd hfresh
  have hadd : addEventListener ⟨ls, inv⟩ handler = ⟨ls ++ [handler], inv⟩ := by
    simp [addEventListener, hfresh]
  have hnd2 : (ls ++ [handler]).Nodup := by
    rw [List.nodup_append]
    exact ⟨hnd, List.nodup_singleton handler,
      by simpa [List.disjoint_singleton] using hfresh⟩
  have hfire : fire ⟨ls ++ [handler], inv⟩ = ⟨[], inv ++ (ls ++ [handler])⟩ :=
    fireAux_complete (ls ++ [handler]) inv hnd2
  refine ⟨rfl, ?_, ?_⟩
  · rw [hadd, hfire]
    simp [List.count_append, List.count_eq_zero_of_not_mem hfresh]
  · rw [hadd, hfire]
    rfl

theorem onExecutionCancellation_one_shot_witness :
    onExecutionCancellation (some ⟨[], []⟩) 7 = some (addEventListener ⟨[], []⟩ 7) ∧
    (fire (addEventListener ⟨[], []⟩ 7)).invocations.count 7 = 1 ∧
    fire (fire (addEventListener ⟨[], []⟩ 7)) = fire (addEventListener ⟨[], []⟩ 7) := by
  have h := onExecutionCancellation_one_shot ⟨[], []⟩ 7 List.nodup_nil (by simp)
  exact ⟨h.1, by simpa using h.2.1, h.2.2⟩

/-- Appending entries to a store never changes the result of a lookup that
already succeeds: `find?` keeps returning its first hit. -/
theorem find?_append_of_some {α : Type} {p : α → Bool} :
    ∀ (l₁ l₂ : List α) {e : α}, l₁.find? p = some e → (l₁ ++ l₂).find? p = some e
  | [], _, _, h => by simp [List.find?] at h
  | a :: as, l₂, e, h => by
    by_cases hp : p a
    · rw [List.find?_cons_of_pos _ hp] at h
      rw [List.cons_append, List.find?_cons_of_pos _ hp]
      exact h
    · rw [List.find?_cons_of_neg _ hp] at h
      rw [List.cons_append, List.find?_cons_of_neg _ hp]
      exact find?_append_of_some as l₂ h

/-- A lookup skips a prefix on which the predicate is everywhere false. -/
theorem find?_append_of_forall_neg {α : Type} {p : α → Bool} :
    ∀ (l₁ l₂ : List α), (∀ a ∈ l₁, ¬ p a) → (l₁ ++ l₂).find? p = l₂.find? p
  | [], _, _ => by simp
  | a :: as, l₂, h => by
    rw [List.cons_append, List.find?_cons_of_neg _ (h a (List.mem_cons_self a as))]
    exact find?_append_of_forall_neg as l₂ (fun x hx => h x (List.mem_cons_of_mem a hx))

/-- Duplicating one reference preserves store well-formedness. -/
theorem duplicateRef_WF (wfId : Option String) (execId : String)
    (st : BinaryStore) (r : Nat) (hwf : st.WF) :
    (duplicateRef wfId execId st r).1.WF := by
  intro e he
  simp only [duplicateRef, List.mem_append, List.mem_singleton] at he
  rcases he with h1 | h2
  · exact Nat.lt_succ_of_lt (hwf e h1)
  · rw [h2]
    exact Nat.lt_succ_self st.nextId

/-- Duplicating one reference preserves every successful lookup. -/
theorem duplicateRef_lookup_mono (wfId : Option String) (execId : String)
    (r : Nat) {st : BinaryStore} {i : Nat} {e : StoreEntry}
    (h : st.lookup i = some e) :
    (duplicateRef wfId execId st r).1.lookup i = some e := by
  simp only [BinaryStore.lookup, duplicateRef] at h ⊢
  exact find?_append_of_some _ _ h

/-- In a well-formed store, the freshly allocated duplicate is found under its
new id, homed in the given workflow/execution scope and carrying the bytes the
original reference resolved to. -/
theorem duplicateRef_lookup_new (wfId : Option String) (execId : String)
    (st : BinaryStore) (r : Nat) (hwf : st.WF) :
    (duplicateRef wfId execId st r).1.lookup st.nextId =
      some ⟨st.nextId, wfId, execId, sourceBytes st r⟩ := by
  have hneg : ∀ a ∈ st.entries, ¬ ((a.id == st.nextId) = true) := by
    intro a ha
    have h1 := hwf a ha
    simp only [beq_iff_eq]
    omega
  simp only [BinaryStore.lookup, duplicateRef]
  rw [find?_append_of_forall_neg st.entries
    [⟨st.nextId, wfId, execId, sourceBytes st r⟩] hneg]
  rw [List.find?_cons_of_pos _ (by simp)]

/-- Re-homing a list of references preserves store well-formedness. -/
theorem duplicateAll_WF (wfId : Option String) (execId : String) :
    ∀ (refs : List Nat) (st : BinaryStore), st.WF →
      (duplicateAll wfId execId st refs).1.WF
  | [], _, hwf => hwf
  | r :: rs, st, hwf =>
    duplicateAll_WF wfId execId rs _ (duplicateRef_WF wfId execId st r hwf)

/-- Re-homing a list of references preserves every successful lookup. -/
theorem duplicateAll_lookup_mono (wfId : Option String) (execId : String) :
    ∀ (refs : List Nat) (st : BinaryStore) (i : Nat) (e : StoreEntry),
      st.lookup i = some e → (duplicateAll wfId execId st refs).1.lookup i = some e
  | [], _, _, _, h => h
  | r :: rs, _, i, e, h =>
    duplicateAll_lookup_mono wfId execId rs _ i e
      (duplicateRef_lookup_mono wfId execId r h)

/-- Re-homing yields one new reference per input reference. -/
theorem duplicateAll_length (wfId : Option String) (execId : String) :
    ∀ (refs : List Nat) (st : BinaryStore),
      (duplicateAll wfId execId st refs).2.length = refs.length
  | [], _ => rfl
  | r :: rs, st => by
    show ((duplicateRef wfId execId st r).2 ::
        (duplicateAll wfId execId (duplicateRef wfId execId st r).1 rs).2).length =
      (r :: rs).length
    simp [duplicateAll_length wfId execId rs]

/-- Position-wise specification of re-homing over a well-formed store whose
incoming references all resolve: every returned reference is a new id,
distinct from the one it replaces, and resolves in the updated store to an
entry homed in the given workflow/execution scope with the original bytes. -/
theorem duplicateAll_rehomes (wfId : Option String) (execId : String) :
    ∀ (refs : List Nat) (st : BinaryStore), st.WF →
      (∀ r ∈ refs, (st.lookup r).isSome) →
      ∀ (i r r' : Nat), refs[i]? = some r →
        (duplicateAll wfId execId st refs).2[i]? = some r' →
        r' ≠ r ∧ ∃ e : StoreEntry, st.lookup r = some e ∧
          (duplicateAll wfId execId st refs).1.lookup r' =
            some ⟨r', wfId, execId, e.data⟩
  | [], _, _, _, _, _, _, hr, _ => by simp at hr
  | r0 :: rs, st, hwf, hres, 0, r, r', hr, hr' => by
    have hcons : (duplicateAll wfId execId st (r0 :: rs)).2 =
        (duplicateRef wfId execId st r0).2 ::
          (duplicateAll wfId execId (duplicateRef wfId execId st r0).1 rs).2 := by
      simp [duplicateAll]
    have hr0 : r = r0 := by simpa using hr.symm
    have hr'0 : r' = st.nextId := by
      rw [hcons] at hr'
      simpa [duplicateRef] using hr'.symm
    obtain ⟨e0, he0⟩ := Option.isSome_iff_exists.mp
      (hres r0 (List.mem_cons_self r0 rs))
    have hid : e0.id = r0 := by
      have := List.find?_some he0
      simpa using this
    have hmem : e0 ∈ st.entries := List.mem_of_find?_eq_some he0
    have hlt : r0 < st.nextId := hid ▸ hwf e0 hmem
    subst hr0 hr'0
    refine ⟨by omega, e0, he0, ?_⟩
    have hbytes : sourceBytes st r = e0.data := by
      simp [sourceBytes, he0]
    have hnew := duplicateRef_lookup_new wfId execId st r hwf
    rw [hbytes] at hnew
    exact duplicateAll_lookup_mono wfId execId rs _ st.nextId _ hnew
  | r0 :: rs, st, hwf, hres, Nat.succ i, r, r', hr, hr' => by
    have hcons : (duplicateAll wfId execId st (r0 :: rs)).2 =
        (duplicateRef wfId execId st r0).2 ::
          (duplicateAll wfId execId (duplicateRef wfId execId st r0).1 rs).2 := by
      simp [duplicateAll]
    have hr1 : rs[i]? = some r := by simpa using hr
    have hr'1 : (duplicateAll wfId execId (duplicateRef wfId execId st r0).1 rs).2[i]? =
        some r' := by
      rw [hcons] at hr'
      simpa using hr'
    have hwf1 := duplicateRef_WF wfId execId st r0 hwf
    have hres1 : ∀ x ∈ rs, ((duplicateRef wfId execId st r0).1.lookup x).isSome := by
      intro x hx
      obtain ⟨e, he⟩ := Option.isSome_iff_exists.mp
        (hres x (List.mem_cons_of_mem r0 hx))
      exact Option.isSome_iff_exists.mpr
        ⟨e, duplicateRef_lookup_mono wfId execId r0 he⟩
    obtain ⟨hne, e, he, hlook⟩ :=
      duplicateAll_rehomes wfId execId rs _ hwf1 hres1 i r r' hr1 hr'1
    obtain ⟨e0, he0⟩ := Option.isSome_iff_exists.mp
      (hres r (List.getElem?_mem hr))
    have hee : e = e0 := by
      have h3 := duplicateRef_lookup_mono wfId execId r0 he0
      rw [he] at h3
      exact Option.some.inj h3
    exact ⟨hne, e0, he0, hee ▸ hlook⟩

/-- Claim C1: for a successful nested execution, `executeWorkflow` passes the
sub-workflow result through binary-data duplication scoped to the parent
workflow id and the parent execution id before returning it, so every
binary-data reference in the returned output is a fresh duplicate — distinct
from the reference it replaces — homed in the current execution scope of the
store and resolving to the original bytes. -/
theorem executeWorkflow_rehomes_binary (workflowId : Option String)
    (executionId : String) (st : BinaryStore) (result : List Nat)
    (hwf : st.WF) (hres : ∀ r ∈ result, (st.lookup r).isSome) :
    executeWorkflow workflowId executionId st (.ok result) =
      .ok (duplicateBinaryData workflowId executionId st result) ∧
    (duplicateBinaryData workflowId executionId st result).2.length =
      result.length ∧
    ∀ (i r r' : Nat), result[i]? = some r →
      (duplicateBinaryData workflowId executionId st result).2[i]? = some r' →
      r' ≠ r ∧ ∃ e : StoreEntry, st.lookup r = some e ∧
        (duplicateBinaryData workflowId executionId st result).1.lookup r' =
          some ⟨r', workflowId, executionId, e.data⟩ :=
  ⟨rfl, duplicateAll_length workflowId executionId result st,
   fun i r r' hr hr' =>
     duplicateAll_rehomes workflowId executionId result st hwf hres i r r' hr hr'⟩

theorem executeWorkflow_rehomes_binary_witness :
    executeWorkflow (some "wf") "parentExec"
        ⟨[⟨0, none, "subExec", [1, 2]⟩], 1⟩ (.ok [0]) =
      .ok (duplicateBinaryData (some "wf") "parentExec"
        ⟨[⟨0, none, "subExec", [1, 2]⟩], 1⟩ [0]) ∧
    (duplicateBinaryData (some "wf") "parentExec"
        ⟨[⟨0, none, "subExec", [1, 2]⟩], 1⟩ [0]).2.length = 1 :=
  ⟨(executeWorkflow_rehomes_binary (some "wf") "parentExec"
      ⟨[⟨0, none, "subExec", [1, 2]⟩], 1⟩ [0] (by decide) (by decide)).1,
   (executeWorkflow_rehomes_binary (some "wf") "parentExec"
      ⟨[⟨0, none, "subExec", [1, 2]⟩], 1⟩ [0] (by decide) (by decide)).2.1⟩

end N8n
